import Mathlib

/-!
Shallow embedding of the system-shared-memory region registry of this
repository and of its restricted-feature grouping.

The registry implementation itself (the server's shared-memory manager) is
not among the sources; only its test suite
`qa/L0_shared_memory/shared_memory_test.py` is.  The registry operations
below are therefore modelled from the specification, with the observable
error messages pinned to the exact substrings the test suite asserts on.
The restricted-feature grouping is embedded directly from
`src/python/tritonfrontend/_api/_restricted_features.py`.
-/

namespace SharedMemoryModel

/-- Modelled from the spec: the error taxonomy of the shared-memory registry
(`AlreadyRegistered`, `NotFound`, `InUse`, `InvalidArgs`, `SizeMismatch`) plus
the two invalid-range errors the inference-time binding layer reports.  The
registry implementation is missing from the sources; the constructors carry
the data the canonical messages are built from. -/
inductive ShmError where
  | alreadyRegistered (name : String)
  | notFound (name : String)
  | inUse (name : String)
  | inUseAgg (names : List String)
  | invalidArgs (name : String)
  | invalidOffset (name : String)
  | invalidOffsetSize (name : String)
  | sizeMismatch (expected got : Nat)
  deriving DecidableEq, Repr

/-- Modelled from the spec: the canonical message for each error kind, with
the exact substrings the client test suite asserts on
("invalid args", "currently in use",
"Unable to find system shared memory region",
"Failed to unregister the following system shared memory regions",
"Expected X, got Y"). -/
def ShmError.message : ShmError → String
  | .alreadyRegistered name =>
      "shared memory region \x27" ++ (name ++ "\x27 already in manager")
  | .notFound name =>
      "Unable to find system shared memory region: \x27" ++ (name ++ "\x27")
  | .inUse name =>
      "Cannot unregister shared memory region \x27" ++
        (name ++ "\x27, it is currently in use.")
  | .inUseAgg names =>
      "Failed to unregister the following system shared memory regions: " ++
        String.intercalate " ," names
  | .invalidArgs name =>
      "failed to register shared memory region \x27" ++
        (name ++ "\x27: invalid args")
  | .invalidOffset name =>
      "Invalid offset for shared memory region \x27" ++ (name ++ "\x27")
  | .invalidOffsetSize name =>
      "Invalid offset + byte size for shared memory region \x27" ++
        (name ++ "\x27")
  | .sizeMismatch expected got =>
      "input byte size mismatch for shared memory region. " ++
        ("Expected " ++ (toString expected ++ (", got " ++ toString got)))

/-- The string `pat` occurs somewhere inside the string `s`. -/
def occursIn (pat s : String) : Prop := pat.data <:+: s.data

instance (pat s : String) : Decidable (occursIn pat s) :=
  inferInstanceAs (Decidable (pat.data <:+: s.data))

/-- A registered view: a named, validated (offset, byte_size) window into a
backing shared-memory object of total size `baseSize`, together with its live
reference count.  Modelled from the spec (§3, "Registered View"). -/
structure RegisteredView where
  name : String
  key : String
  offset : Nat
  byteSize : Nat
  baseSize : Nat
  refCount : Nat
  deriving DecidableEq, Repr

/-- The registry: name-keyed views in registration order. -/
abbrev Registry := List RegisteredView

def lookupView (reg : Registry) (name : String) : Option RegisteredView :=
  reg.find? (fun v => v.name == name)

/-- Modelled from the spec: the HTTP transport carries the registration
offset as an unsigned decimal that the server stores in its native signed
64-bit offset type; a value with the top bit set therefore arrives as a
negative number (two's-complement wrap of `raw mod 2^64`). -/
def decodeI64 (raw : Nat) : Int :=
  if raw % 2 ^ 64 < 2 ^ 63 then ((raw % 2 ^ 64 : Nat) : Int)
  else ((raw % 2 ^ 64 : Nat) : Int) - 2 ^ 64

/-- Modelled from the spec (§4.1 `register`): fail with `AlreadyRegistered`
if the name is present; fail with `InvalidArgs` if `offset < 0`,
`byte_size < 0` or `offset + byte_size > base_size` (the sum computed in
unbounded integers, so it cannot wrap); otherwise store a new view with
`ref_count = 0`. -/
def register (reg : Registry) (name key : String) (offset byteSize : Int)
    (baseSize : Nat) : Except ShmError Registry :=
  match lookupView reg name with
  | some _ => .error (.alreadyRegistered name)
  | none =>
      if offset < 0 ∨ byteSize < 0 ∨ (baseSize : Int) < offset + byteSize then
        .error (.invalidArgs name)
      else
        .ok (reg ++ [{ name := name, key := key, offset := offset.toNat,
                       byteSize := byteSize.toNat, baseSize := baseSize,
                       refCount := 0 }])

/-- Modelled from the spec and the repository tests: `unregister(name)`
fails immediately with `InUse` while the view's reference count is non-zero
(`_test_unregister_shm_fail`), removes the view once the count is zero, and
is a no-op success when the name is absent (`test_unregister_before_register`
unregisters a never-registered name and expects no error). -/
def unregisterNamed (reg : Registry) (name : String) : Except ShmError Registry :=
  match lookupView reg name with
  | none => .ok reg
  | some v =>
      if v.refCount != 0 then .error (.inUse name)
      else .ok (reg.filter (fun w => !(w.name == name)))

/-- Modelled from the spec (§4.1 `status(name)`): fails with `NotFound` when
the name is absent ("Unable to find system shared memory region: ..."),
otherwise returns the view's descriptor. -/
def statusNamed (reg : Registry) (name : String) : Except ShmError RegisteredView :=
  match lookupView reg name with
  | none => .error (.notFound name)
  | some v => .ok v

/-- Modelled from the spec (§4.1 `unregister()` with no name): best-effort
sweep over the registry in order, removing every view whose reference count
is zero and collecting the names of the in-use views that could not be
removed. -/
def sweep : Registry → Registry × List String
  | [] => ([], [])
  | v :: rest =>
      if v.refCount != 0 then (v :: (sweep rest).1, v.name :: (sweep rest).2)
      else sweep rest

/-- Modelled from the spec: the no-name `unregister()` runs the sweep and,
when any view was still in use, reports a single aggregate `InUse` error
naming every region that could not be unregistered. -/
def unregisterAll (reg : Registry) : Registry × Option ShmError :=
  let out := sweep reg
  (out.1, if out.2.isEmpty then none else some (.inUseAgg out.2))

/-- Increment the reference count of the view named `name`. -/
def bumpRef (reg : Registry) (name : String) : Registry :=
  reg.map (fun v =>
    if v.name == name then { v with refCount := v.refCount + 1 } else v)

/-- Modelled from the spec (§4.1 `release`): decrement the reference count
of the view named `name`; never fails. -/
def release (reg : Registry) (name : String) : Registry :=
  reg.map (fun v =>
    if v.name == name then { v with refCount := v.refCount - 1 } else v)

/-- Modelled from the spec (§4.1 `bind`): fail with `NotFound` when the name
is absent; fail with `SizeMismatch` ("Expected X, got Y", where X is the
required size and Y the view's registered size) when the required byte size
differs from the view's; otherwise increment the reference count and return
the resolved range `(offset, byte_size)` together with the updated registry. -/
def bind (reg : Registry) (name : String) (required : Nat) :
    Except ShmError (Registry × Nat × Nat) :=
  match lookupView reg name with
  | none => .error (.notFound name)
  | some v =>
      if required ≠ v.byteSize then .error (.sizeMismatch required v.byteSize)
      else .ok (bumpRef reg name, v.offset, v.byteSize)

/-- Modelled from the spec and the inference tests: the binding layer's
range check for an inference-supplied (offset, byte_size) against a
registered region of size `regionSize`.  A negative or too-large offset is
an invalid-offset error ("Invalid offset for shared memory region", hit by
`test_infer_offset_out_of_bound`); an in-range offset whose window exceeds
the region is an invalid offset + byte size error
(`test_infer_byte_size_out_of_bound`). -/
def checkMemoryRange (name : String) (offset byteSize : Int)
    (regionSize : Nat) : Except ShmError Unit :=
  if offset < 0 ∨ (regionSize : Int) ≤ offset then
    .error (.invalidOffset name)
  else if (regionSize : Int) < offset + byteSize then
    .error (.invalidOffsetSize name)
  else
    .ok ()

/-- The reference count of the view named `name`, when registered. -/
def refCountOf (reg : Registry) (name : String) : Option Nat :=
  (lookupView reg name).map (fun v => v.refCount)

/-- A concrete registered view covering a whole backing object, used to
instantiate the general theorems on the test suite's regions. -/
def sampleView (name key : String) (byteSize refCount : Nat) : RegisteredView :=
  { name := name, key := key, offset := 0, byteSize := byteSize,
    baseSize := byteSize, refCount := refCount }

end SharedMemoryModel

namespace RestrictedFeaturesModel

/-- The `Feature` enum of
`src/python/tritonfrontend/_api/_restricted_features.py`. -/
inductive Feature where
  | health
  | metadata
  | inference
  | shmMemory
  | modelConfig
  | modelRepository
  | statistics
  | trace
  | logging
  deriving DecidableEq, Repr

/-- The wire value of each `Feature`, as in the Python enum. -/
def Feature.value : Feature → String
  | .health => "health"
  | .metadata => "metadata"
  | .inference => "inference"
  | .shmMemory => "shared-memory"
  | .modelConfig => "model-config"
  | .modelRepository => "model-repository"
  | .statistics => "statistics"
  | .trace => "trace"
  | .logging => "logging"

/-- The `FeatureGroup` pydantic dataclass: a (key, value, features) triple.
The pydantic validator only enforces that every element of `features` is a
`Feature` instance, which the Lean type already guarantees. -/
structure FeatureGroup where
  key : String
  value : String
  features : List Feature
  deriving DecidableEq, Repr

/-- The error raised by `add_feature_group` on a feature collision
(`InvalidArgumentError` in the Python source). -/
inductive PyError where
  | invalidArgumentError (msg : String)
  deriving DecidableEq, Repr

/-- The mutable state of a `RestrictedFeatures` object: the list of stored
groups and the set of features already claimed by some group
(`features_restricted`, a Python `set`, modelled as a `Finset`). -/
structure RestrictedFeatures where
  feature_groups : List FeatureGroup
  features_restricted : Finset Feature
  deriving DecidableEq

/-- `RestrictedFeatures.add_feature_group`: scan the candidate group's
features for one already claimed in `features_restricted`; if found, raise
`InvalidArgumentError` without touching the state; otherwise update
`features_restricted` with the group's features and append the group. -/
def add_feature_group (rf : RestrictedFeatures) (group : FeatureGroup) :
    Except PyError RestrictedFeatures :=
  match group.features.find? (fun feat => decide (feat ∈ rf.features_restricted)) with
  | some feat =>
      .error (.invalidArgumentError
        ("A given feature can only belong to one group." ++
          (feat.value ++ " already belongs to an existing group.")))
  | none =>
      .ok { feature_groups := rf.feature_groups ++ [group],
            features_restricted := rf.features_restricted ∪ group.features.toFinset }

/-- `RestrictedFeatures.create_feature_group`: build the `FeatureGroup` and
delegate to `add_feature_group`. -/
def create_feature_group (rf : RestrictedFeatures) (key value : String)
    (features : List Feature) : Except PyError RestrictedFeatures :=
  add_feature_group rf { key := key, value := value, features := features }

/-- `RestrictedFeatures.__init__`: start from empty state and add each given
group in order through `add_feature_group`. -/
def RestrictedFeatures.init (groups : List FeatureGroup) :
    Except PyError RestrictedFeatures :=
  groups.foldlM add_feature_group { feature_groups := [], features_restricted := ∅ }

/-- The union of the feature sets of a list of groups. -/
def groupsUnion (groups : List FeatureGroup) : Finset Feature :=
  groups.foldr (fun g acc => g.features.toFinset ∪ acc) ∅

/-- The collision-detection invariant of `RestrictedFeatures`:
`features_restricted` is exactly the union of the feature sets of the stored
groups. -/
def Invariant (rf : RestrictedFeatures) : Prop :=
  rf.features_restricted = groupsUnion rf.feature_groups

instance (rf : RestrictedFeatures) : Decidable (Invariant rf) := by
  unfold Invariant; infer_instance

end RestrictedFeaturesModel

namespace SharedMemoryModel

theorem occursIn_append_right {pat b : String} (a : String) (h : occursIn pat b) :
    occursIn pat (a ++ b) := by
  obtain ⟨s, t, hst⟩ := h
  refine ⟨a.data ++ s, t, ?_⟩
  rw [String.data_append, ← hst]
  simp [List.append_assoc]

theorem occursIn_append_left {pat a : String} (b : String) (h : occursIn pat a) :
    occursIn pat (a ++ b) := by
  obtain ⟨s, t, hst⟩ := h
  refine ⟨s, t ++ b.data, ?_⟩
  rw [String.data_append, ← hst]
  simp [List.append_assoc]

theorem occursIn_refl (pat : String) : occursIn pat pat :=
  ⟨[], [], by simp⟩

/-- C1: a `register(name, key, offset, byte_size)` call against a backing
object of size `base_size` fails with `InvalidArgs` (message containing
"invalid args") whenever `offset + byte_size > base_size`, and a zero
`byte_size` is not by itself an error: whenever the sum stays within bounds
the call succeeds and stores the view.  The name is assumed fresh (a
duplicate name fails earlier with `AlreadyRegistered`). -/
theorem register_bounds_c1 (reg : Registry) (name key : String)
    (offset byteSize : Int) (baseSize : Nat)
    (hfresh : lookupView reg name = none)
    (hoff : 0 ≤ offset) (hsz : 0 ≤ byteSize) :
    ((baseSize : Int) < offset + byteSize →
        register reg name key offset byteSize baseSize =
          .error (.invalidArgs name) ∧
        occursIn "invalid args" (ShmError.message (.invalidArgs name))) ∧
    (offset + byteSize ≤ (baseSize : Int) →
        register reg name key offset byteSize baseSize =
          .ok (reg ++ [{ name := name, key := key, offset := offset.toNat,
                         byteSize := byteSize.toNat, baseSize := baseSize,
                         refCount := 0 }])) := by
  constructor
  · intro hover
    constructor
    · simp only [register, hfresh]
      rw [if_pos (Or.inr (Or.inr hover))]
    · have hmsg : ShmError.message (.invalidArgs name) =
          "failed to register shared memory region \x27" ++
            (name ++ "\x27: invalid args") := rfl
      rw [hmsg]
      exact occursIn_append_right _ (occursIn_append_right _ (by decide))
  · intro hle
    simp only [register, hfresh]
    rw [if_neg]
    rintro (h | h | h) <;> omega

/-- C1 witness: against a 64-byte object, registering (offset, byte_size)
equal to (1, 64), (0, 65), (64, 1) and (65, 0) all fail with `InvalidArgs`,
while (64, 0) succeeds, so a zero byte size is not by itself an error. -/
theorem register_bounds_c1_witness :
    register [] "input0_data" "/input0_data" 1 64 64 =
      .error (.invalidArgs "input0_data") ∧
    register [] "input0_data" "/input0_data" 0 65 64 =
      .error (.invalidArgs "input0_data") ∧
    register [] "input0_data" "/input0_data" 64 1 64 =
      .error (.invalidArgs "input0_data") ∧
    register [] "input0_data" "/input0_data" 65 0 64 =
      .error (.invalidArgs "input0_data") ∧
    occursIn "invalid args" (ShmError.message (.invalidArgs "input0_data")) ∧
    register [] "input0_data" "/input0_data" 64 0 64 =
      .ok [{ name := "input0_data", key := "/input0_data", offset := 64,
             byteSize := 0, baseSize := 64, refCount := 0 }] :=
  ⟨((register_bounds_c1 [] "input0_data" "/input0_data" 1 64 64 rfl (by decide)
      (by decide)).1 (by decide)).1,
   ((register_bounds_c1 [] "input0_data" "/input0_data" 0 65 64 rfl (by decide)
      (by decide)).1 (by decide)).1,
   ((register_bounds_c1 [] "input0_data" "/input0_data" 64 1 64 rfl (by decide)
      (by decide)).1 (by decide)).1,
   ((register_bounds_c1 [] "input0_data" "/input0_data" 65 0 64 rfl (by decide)
      (by decide)).1 (by decide)).1,
   ((register_bounds_c1 [] "input0_data" "/input0_data" 65 0 64 rfl (by decide)
      (by decide)).1 (by decide)).2,
   (register_bounds_c1 [] "input0_data" "/input0_data" 64 0 64 rfl (by decide)
      (by decide)).2 (by decide)⟩

/-- C2: the bounds check is computed without integer wrap-around.  Any raw
offset whose low 64 bits have the top bit set (such as `2^64 - 32` supplied
over a transport whose native offset type is signed 64-bit) decodes to a
negative signed offset, and both the inference-time range check and
`register` then fail deterministically with an invalid-offset /
invalid-args error for every byte size, instead of wrapping to a small,
apparently valid sum. -/
theorem offset_no_wrap_c2 (reg : Registry) (name key : String) (raw : Nat)
    (byteSize : Int) (baseSize : Nat)
    (htop : 2 ^ 63 ≤ raw % 2 ^ 64) (hfresh : lookupView reg name = none) :
    decodeI64 raw < 0 ∧
    checkMemoryRange name (decodeI64 raw) byteSize baseSize =
      .error (.invalidOffset name) ∧
    register reg name key (decodeI64 raw) byteSize baseSize =
      .error (.invalidArgs name) := by
  have hlt : raw % 2 ^ 64 < 2 ^ 64 := Nat.mod_lt _ (by norm_num)
  have hneg : decodeI64 raw < 0 := by
    rw [decodeI64, if_neg (by omega)]
    have : ((raw % 2 ^ 64 : Nat) : Int) < 2 ^ 64 := by exact_mod_cast hlt
    omega
  refine ⟨hneg, ?_, ?_⟩
  · rw [checkMemoryRange, if_pos (Or.inl hneg)]
  · simp only [register, hfresh]
    rw [if_pos (Or.inl hneg)]

/-- C2 witness: the raw offset `2^64 - 32` decodes to the signed value
`-32`, and with byte size 32 against a 64-byte region (where a wrapped sum
would be the apparently valid 0) both the range check and registration
fail. -/
theorem offset_no_wrap_c2_witness :
    decodeI64 (2 ^ 64 - 32) = -32 ∧
    decodeI64 (2 ^ 64 - 32) < 0 ∧
    checkMemoryRange "output0_data" (decodeI64 (2 ^ 64 - 32)) 32 64 =
      .error (.invalidOffset "output0_data") ∧
    register [] "output0_data" "/output0_data" (decodeI64 (2 ^ 64 - 32)) 32 64 =
      .error (.invalidArgs "output0_data") :=
  ⟨by decide,
   (offset_no_wrap_c2 [] "output0_data" "/output0_data" (2 ^ 64 - 32) 32 64
      (by decide) rfl).1,
   (offset_no_wrap_c2 [] "output0_data" "/output0_data" (2 ^ 64 - 32) 32 64
      (by decide) rfl).2.1,
   (offset_no_wrap_c2 [] "output0_data" "/output0_data" (2 ^ 64 - 32) 32 64
      (by decide) rfl).2.2⟩

/-- C5: once a name is registered, a second `register` call with the same
name and any arguments fails with `AlreadyRegistered`, and the registry
still lists exactly the first registration's view with its original
descriptor. -/
theorem register_duplicate_c5 (name key key2 : String)
    (offset byteSize offset2 byteSize2 : Int) (baseSize baseSize2 : Nat)
    (reg1 : Registry)
    (h1 : register [] name key offset byteSize baseSize = .ok reg1) :
    register reg1 name key2 offset2 byteSize2 baseSize2 =
      .error (.alreadyRegistered name) ∧
    reg1 = [{ name := name, key := key, offset := offset.toNat,
              byteSize := byteSize.toNat, baseSize := baseSize,
              refCount := 0 }] := by
  simp only [register, lookupView, List.find?_nil, List.nil_append] at h1
  split at h1
  · exact absurd h1 (by simp)
  · injection h1 with h2
    subst h2
    refine ⟨?_, rfl⟩
    have hfound : lookupView
        [{ name := name, key := key, offset := offset.toNat,
           byteSize := byteSize.toNat, baseSize := baseSize,
           refCount := 0 }] name =
        some { name := name, key := key, offset := offset.toNat,
               byteSize := byteSize.toNat, baseSize := baseSize,
               refCount := 0 } := by
      simp [lookupView, List.find?]
    simp only [register, hfound]

/-- C5 witness: after registering "dummy_data" (8 bytes at offset 0), a
second registration of the same name fails with `AlreadyRegistered` and the
registry still lists exactly the original view. -/
theorem register_duplicate_c5_witness :
    register [{ name := "dummy_data", key := "/dummy_data", offset := 0,
                byteSize := 8, baseSize := 8, refCount := 0 }]
        "dummy_data" "/dummy_data" 0 8 8 =
      .error (.alreadyRegistered "dummy_data") ∧
    ([{ name := "dummy_data", key := "/dummy_data", offset := 0,
        byteSize := 8, baseSize := 8, refCount := 0 }] : Registry) =
      [{ name := "dummy_data", key := "/dummy_data", offset := 0,
         byteSize := 8, baseSize := 8, refCount := 0 }] :=
  register_duplicate_c5 "dummy_data" "/dummy_data" "/dummy_data" 0 8 0 8 8 8
    [{ name := "dummy_data", key := "/dummy_data", offset := 0,
       byteSize := 8, baseSize := 8, refCount := 0 }] rfl

/-- C7 counterexample: the claim says `unregister(name)` of an absent name
fails with `NotFound`, but the repository's own test
`test_unregister_before_register` unregisters a never-registered name and
expects no error; on the empty registry `unregister("dummy_data")` succeeds
as a no-op. -/
theorem unregister_absent_not_error_c7 :
    unregisterNamed [] "dummy_data" = .ok ([] : Registry) := rfl

/-- C7 (amended): `unregister(name)` of an absent name succeeds as a no-op,
leaving the registry unchanged; it is `status(name)` that fails with
`NotFound` for an absent name, with a message containing
"Unable to find system shared memory region". -/
theorem unregister_absent_c7 (reg : Registry) (name : String)
    (habsent : lookupView reg name = none) :
    unregisterNamed reg name = .ok reg ∧
    statusNamed reg name = .error (.notFound name) ∧
    occursIn "Unable to find system shared memory region"
      (ShmError.message (.notFound name)) := by
  refine ⟨?_, ?_, ?_⟩
  · simp only [unregisterNamed, habsent]
  · simp only [statusNamed, habsent]
  · have hmsg : ShmError.message (.notFound name) =
        "Unable to find system shared memory region: \x27" ++
          (name ++ "\x27") := rfl
    rw [hmsg]
    exact occursIn_append_left _ (by decide)

/-- C7 witness: on the empty registry, unregistering "dummy_data" is a
no-op success while its status query fails with `NotFound` whose message
contains "Unable to find system shared memory region". -/
theorem unregister_absent_c7_witness :
    unregisterNamed [] "dummy_data" = .ok ([] : Registry) ∧
    statusNamed [] "dummy_data" = .error (.notFound "dummy_data") ∧
    occursIn "Unable to find system shared memory region"
      (ShmError.message (.notFound "dummy_data")) :=
  unregister_absent_c7 [] "dummy_data" rfl

/-- C3: for a registered view with a non-zero reference count,
`unregister(name)` fails immediately with `InUse` (the operation returns
the error outright, it does not wait for the count to drop), with a message
containing "currently in use"; once the reference count is zero,
`unregister(name)` succeeds and removes the view from the registry. -/
theorem unregister_refcount_c3 (reg : Registry) (name : String)
    (v : RegisteredView) (hfound : lookupView reg name = some v) :
    (v.refCount ≠ 0 →
        unregisterNamed reg name = .error (.inUse name) ∧
        occursIn "currently in use" (ShmError.message (.inUse name))) ∧
    (v.refCount = 0 →
        unregisterNamed reg name =
          .ok (reg.filter (fun w => !(w.name == name))) ∧
        lookupView (reg.filter (fun w => !(w.name == name))) name = none) := by
  constructor
  · intro hne
    have hb : (v.refCount != 0) = true := by simpa using hne
    constructor
    · simp only [unregisterNamed, hfound, hb, if_true]
    · have hmsg : ShmError.message (.inUse name) =
          "Cannot unregister shared memory region \x27" ++
            (name ++ "\x27, it is currently in use.") := rfl
      rw [hmsg]
      exact occursIn_append_right _ (occursIn_append_right _ (by decide))
  · intro hz
    have hb : (v.refCount != 0) = false := by simpa using hz
    constructor
    · simp [unregisterNamed, hfound, hb]
    · rw [lookupView, List.find?_eq_none]
      intro a ha
      have := (List.mem_filter.mp ha).2
      simp only [Bool.not_eq_true'] at this
      simp [this]

/-- C3 witness: with "input0_data" registered and one in-flight request
holding it, unregistering fails with `InUse` (message containing
"currently in use"); with the count back at zero, the same call succeeds
and the view is gone. -/
theorem unregister_refcount_c3_witness :
    (unregisterNamed [sampleView "input0_data" "/input0_data" 64 1]
      "input0_data" = .error (.inUse "input0_data") ∧
     occursIn "currently in use" (ShmError.message (.inUse "input0_data"))) ∧
    (unregisterNamed [sampleView "input0_data" "/input0_data" 64 0]
      "input0_data" =
        .ok (List.filter (fun w => !(w.name == "input0_data"))
          [sampleView "input0_data" "/input0_data" 64 0]) ∧
     lookupView (List.filter (fun w => !(w.name == "input0_data"))
          [sampleView "input0_data" "/input0_data" 64 0])
        "input0_data" = none) :=
  ⟨(unregister_refcount_c3 [sampleView "input0_data" "/input0_data" 64 1]
      "input0_data" _ rfl).1 (by decide),
   (unregister_refcount_c3 [sampleView "input0_data" "/input0_data" 64 0]
      "input0_data" _ rfl).2 rfl⟩

/-- C6: `bind(name, required_byte_size)` on a registered view whose byte
size differs from the required one fails with `SizeMismatch`, whose message
states the expected and actual sizes ("Expected required, got registered"),
and produces no updated registry, so the view's reference count is not
incremented by the failed bind. -/
theorem bind_size_mismatch_c6 (reg : Registry) (name : String)
    (v : RegisteredView) (required : Nat)
    (hfound : lookupView reg name = some v) (hne : required ≠ v.byteSize) :
    bind reg name required = .error (.sizeMismatch required v.byteSize) ∧
    occursIn ("Expected " ++ (toString required ++
        (", got " ++ toString v.byteSize)))
      (ShmError.message (.sizeMismatch required v.byteSize)) ∧
    ∀ out, bind reg name required ≠ .ok out := by
  have hb : bind reg name required =
      .error (.sizeMismatch required v.byteSize) := by
    simp only [bind, hfound, if_pos hne]
  refine ⟨hb, ?_, ?_⟩
  · have hmsg : ShmError.message (.sizeMismatch required v.byteSize) =
        "input byte size mismatch for shared memory region. " ++
          ("Expected " ++ (toString required ++
            (", got " ++ toString v.byteSize))) := rfl
    rw [hmsg]
    exact occursIn_append_right _ (occursIn_refl _)
  · intro out hout
    rw [hb] at hout
    exact Except.noConfusion hout

/-- C6 witness: binding 64 required bytes against the view "input2_data"
registered with byte size 128 fails with `SizeMismatch`, whose message
contains "Expected 64, got 128", and yields no updated registry. -/
theorem bind_size_mismatch_c6_witness :
    bind [sampleView "input2_data" "/input2_data" 128 0] "input2_data" 64 =
      .error (.sizeMismatch 64 128) ∧
    occursIn "Expected 64, got 128"
      (ShmError.message (.sizeMismatch 64 128)) ∧
    ∀ out, bind [sampleView "input2_data" "/input2_data" 128 0]
        "input2_data" 64 ≠ .ok out :=
  ⟨(bind_size_mismatch_c6 [sampleView "input2_data" "/input2_data" 128 0]
      "input2_data" _ 64 rfl (by decide)).1,
   (bind_size_mismatch_c6 [sampleView "input2_data" "/input2_data" 128 0]
      "input2_data" _ 64 rfl (by decide)).2.1,
   (bind_size_mismatch_c6 [sampleView "input2_data" "/input2_data" 128 0]
      "input2_data" _ 64 rfl (by decide)).2.2⟩

theorem sweep_eq (reg : Registry) :
    sweep reg = (reg.filter (fun v => v.refCount != 0),
                 (reg.filter (fun v => v.refCount != 0)).map (fun v => v.name)) := by
  induction reg with
  | nil => rfl
  | cons v rest ih =>
      simp only [sweep, ih, List.filter_cons]
      cases h : (v.refCount != 0) <;> simp [h]

/-- C4: the no-name sweep `unregister()` removes exactly the views whose
reference count is zero and keeps every in-use view; when at least one view
is in use it reports a single aggregate `InUse` error naming every region
that could not be unregistered, and when no view is in use it leaves the
registry empty and returns success. -/
theorem unregister_all_c4 (reg : Registry) :
    (unregisterAll reg).1 = reg.filter (fun v => v.refCount != 0) ∧
    ((∃ v ∈ reg, v.refCount ≠ 0) →
        (unregisterAll reg).2 = some (.inUseAgg
          ((reg.filter (fun v => v.refCount != 0)).map (fun v => v.name)))) ∧
    ((∀ v ∈ reg, v.refCount = 0) →
        unregisterAll reg = (([] : Registry), none)) := by
  refine ⟨?_, ?_, ?_⟩
  · simp [unregisterAll, sweep_eq]
  · intro h
    rcases h with ⟨v, hv, hne⟩
    have hmem : v ∈ reg.filter (fun v => v.refCount != 0) :=
      List.mem_filter.mpr ⟨hv, by simpa using hne⟩
    have hnonnil : (reg.filter (fun v => v.refCount != 0)).map
        (fun v => v.name) ≠ [] := by
      simp only [ne_eq, List.map_eq_nil_iff]
      intro hnil
      rw [hnil] at hmem
      exact List.not_mem_nil v hmem
    simp [unregisterAll, sweep_eq, List.isEmpty_iff, hnonnil]
  · intro h
    have hnil : reg.filter (fun v => v.refCount != 0) = [] := by
      rw [List.filter_eq_nil_iff]
      intro v hv
      simpa using h v hv
    simp [unregisterAll, sweep_eq, hnil]

/-- C4 witness: on a registry of four views with "output1_data" still in
use, the sweep keeps exactly that view and reports a single aggregate
`InUse` error naming it; on the same registry with nothing in use, the
sweep empties the registry and succeeds. -/
theorem unregister_all_c4_witness :
    (unregisterAll [sampleView "input0_data" "/input0_data" 64 0,
        sampleView "input1_data" "/input1_data" 64 0,
        sampleView "output0_data" "/output0_data" 64 0,
        sampleView "output1_data" "/output1_data" 64 2]).1 =
      List.filter (fun v => v.refCount != 0)
        [sampleView "input0_data" "/input0_data" 64 0,
         sampleView "input1_data" "/input1_data" 64 0,
         sampleView "output0_data" "/output0_data" 64 0,
         sampleView "output1_data" "/output1_data" 64 2] ∧
    (unregisterAll [sampleView "input0_data" "/input0_data" 64 0,
        sampleView "input1_data" "/input1_data" 64 0,
        sampleView "output0_data" "/output0_data" 64 0,
        sampleView "output1_data" "/output1_data" 64 2]).2 =
      some (.inUseAgg (List.map (fun v => v.name)
        (List.filter (fun v => v.refCount != 0)
          [sampleView "input0_data" "/input0_data" 64 0,
           sampleView "input1_data" "/input1_data" 64 0,
           sampleView "output0_data" "/output0_data" 64 0,
           sampleView "output1_data" "/output1_data" 64 2]))) ∧
    unregisterAll [sampleView "input0_data" "/input0_data" 64 0,
        sampleView "input1_data" "/input1_data" 64 0,
        sampleView "output0_data" "/output0_data" 64 0,
        sampleView "output1_data" "/output1_data" 64 0] =
      (([] : Registry), none) :=
  ⟨(unregister_all_c4 [sampleView "input0_data" "/input0_data" 64 0,
      sampleView "input1_data" "/input1_data" 64 0,
      sampleView "output0_data" "/output0_data" 64 0,
      sampleView "output1_data" "/output1_data" 64 2]).1,
   (unregister_all_c4 [sampleView "input0_data" "/input0_data" 64 0,
      sampleView "input1_data" "/input1_data" 64 0,
      sampleView "output0_data" "/output0_data" 64 0,
      sampleView "output1_data" "/output1_data" 64 2]).2.1
    ⟨sampleView "output1_data" "/output1_data" 64 2, by decide, by decide⟩,
   (unregister_all_c4 [sampleView "input0_data" "/input0_data" 64 0,
      sampleView "input1_data" "/input1_data" 64 0,
      sampleView "output0_data" "/output0_data" 64 0,
      sampleView "output1_data" "/output1_data" 64 0]).2.2 (by decide)⟩

theorem lookupView_bumpRef (reg : Registry) (name : String) :
    lookupView (bumpRef reg name) name =
      (lookupView reg name).map (fun v => { v with refCount := v.refCount + 1 }) := by
  induction reg with
  | nil => rfl
  | cons v rest ih =>
      simp only [lookupView] at ih ⊢
      cases h : (v.name == name) with
      | true =>
          have hmap : bumpRef (v :: rest) name =
              { v with refCount := v.refCount + 1 } :: bumpRef rest name := by
            simp only [bumpRef, List.map_cons, h, if_true]
          rw [hmap]
          simp [List.find?_cons, h]
      | false =>
          have hmap : bumpRef (v :: rest) name = v :: bumpRef rest name := by
            unfold bumpRef
            rw [List.map_cons, if_neg]
            simp [h]
          rw [hmap]
          simp only [List.find?_cons, h]
          exact ih

theorem lookupView_release (reg : Registry) (name : String) :
    lookupView (release reg name) name =
      (lookupView reg name).map (fun v => { v with refCount := v.refCount - 1 }) := by
  induction reg with
  | nil => rfl
  | cons v rest ih =>
      simp only [lookupView] at ih ⊢
      cases h : (v.name == name) with
      | true =>
          have hmap : release (v :: rest) name =
              { v with refCount := v.refCount - 1 } :: release rest name := by
            simp only [release, List.map_cons, h, if_true]
          rw [hmap]
          simp [List.find?_cons, h]
      | false =>
          have hmap : release (v :: rest) name = v :: release rest name := by
            unfold release
            rw [List.map_cons, if_neg]
            simp [h]
          rw [hmap]
          simp only [List.find?_cons, h]
          exact ih

theorem refCountOf_bumpRef (reg : Registry) (name : String) :
    refCountOf (bumpRef reg name) name =
      (refCountOf reg name).map (fun n => n + 1) := by
  rw [refCountOf, refCountOf, lookupView_bumpRef]
  cases lookupView reg name <;> rfl

theorem refCountOf_release (reg : Registry) (name : String) :
    refCountOf (release reg name) name =
      (refCountOf reg name).map (fun n => n - 1) := by
  rw [refCountOf, refCountOf, lookupView_release]
  cases lookupView reg name <;> rfl

theorem refCountOf_bumpRef_iter (reg : Registry) (name : String) (c n : Nat)
    (h : refCountOf reg name = some c) :
    refCountOf ((fun r => bumpRef r name)^[n] reg) name = some (c + n) := by
  induction n generalizing reg c with
  | zero => simpa using h
  | succ n ih =>
      rw [Function.iterate_succ_apply', refCountOf_bumpRef, ih reg c h]
      rfl

theorem refCountOf_release_iter (reg : Registry) (name : String) (c n : Nat)
    (h : refCountOf reg name = some (c + n)) :
    refCountOf ((fun r => release r name)^[n] reg) name = some c := by
  induction n generalizing reg with
  | zero => simpa using h
  | succ n ih =>
      rw [Function.iterate_succ_apply]
      apply ih
      rw [refCountOf_release, h]
      rfl

/-- C8: for a registered view, a successful `bind` is exactly a
reference-count increment, and `n` bind increments followed by `n` release
decrements return the view's reference count to its value before the
sequence; in particular, when the view started with no holders, `unregister`
of it succeeds once every bind has been released. -/
theorem bind_release_balanced_c8 (reg : Registry) (name : String)
    (v : RegisteredView) (n : Nat) (hfound : lookupView reg name = some v) :
    bind reg name v.byteSize = .ok (bumpRef reg name, v.offset, v.byteSize) ∧
    refCountOf ((fun r => release r name)^[n]
        ((fun r => bumpRef r name)^[n] reg)) name = some v.refCount ∧
    (v.refCount = 0 →
        ∃ reg2, unregisterNamed ((fun r => release r name)^[n]
            ((fun r => bumpRef r name)^[n] reg)) name = .ok reg2) := by
  have h0 : refCountOf reg name = some v.refCount := by
    rw [refCountOf, hfound]; rfl
  have hseq : refCountOf ((fun r => release r name)^[n]
      ((fun r => bumpRef r name)^[n] reg)) name = some v.refCount :=
    refCountOf_release_iter _ name v.refCount n
      (refCountOf_bumpRef_iter reg name v.refCount n h0)
  refine ⟨?_, hseq, ?_⟩
  · simp [bind, hfound]
  · intro hz
    rw [hz] at hseq
    rw [refCountOf] at hseq
    cases hl : lookupView ((fun r => release r name)^[n]
        ((fun r => bumpRef r name)^[n] reg)) name with
    | none => rw [hl] at hseq; exact absurd hseq (by simp)
    | some w =>
        rw [hl] at hseq
        have hw : w.refCount = 0 := by simpa using hseq
        have hb : (w.refCount != 0) = false := by simpa using hw
        exact ⟨((fun r => release r name)^[n]
            ((fun r => bumpRef r name)^[n] reg)).filter
              (fun u => !(u.name == name)),
          by simp [unregisterNamed, hl, hb]⟩

/-- C8 witness: on a registry holding "input0_data" with reference count
zero, three binds followed by three releases leave the count at zero again,
after which unregistering the view succeeds; a single bind at the view's
byte size is exactly the reference-count increment. -/
theorem bind_release_balanced_c8_witness :
    bind [sampleView "input0_data" "/input0_data" 64 0] "input0_data"
        (sampleView "input0_data" "/input0_data" 64 0).byteSize =
      .ok (bumpRef [sampleView "input0_data" "/input0_data" 64 0]
             "input0_data",
           (sampleView "input0_data" "/input0_data" 64 0).offset,
           (sampleView "input0_data" "/input0_data" 64 0).byteSize) ∧
    refCountOf ((fun r => release r "input0_data")^[3]
        ((fun r => bumpRef r "input0_data")^[3]
          [sampleView "input0_data" "/input0_data" 64 0])) "input0_data" =
      some (sampleView "input0_data" "/input0_data" 64 0).refCount ∧
    ((sampleView "input0_data" "/input0_data" 64 0).refCount = 0 →
        ∃ reg2, unregisterNamed ((fun r => release r "input0_data")^[3]
            ((fun r => bumpRef r "input0_data")^[3]
              [sampleView "input0_data" "/input0_data" 64 0]))
          "input0_data" = .ok reg2) :=
  bind_release_balanced_c8 [sampleView "input0_data" "/input0_data" 64 0]
    "input0_data" (sampleView "input0_data" "/input0_data" 64 0) 3 rfl

end SharedMemoryModel

namespace RestrictedFeaturesModel

theorem add_error_of_find (rf : RestrictedFeatures) (group : FeatureGroup)
    (feat : Feature) (hmem : feat ∈ group.features)
    (hres : feat ∈ rf.features_restricted) :
    ∃ e, add_feature_group rf group = .error e := by
  have hsome : (group.features.find?
      (fun feat => decide (feat ∈ rf.features_restricted))).isSome :=
    List.find?_isSome.mpr ⟨feat, hmem, by simpa using hres⟩
  obtain ⟨f0, hf0⟩ := Option.isSome_iff_exists.mp hsome
  exact ⟨.invalidArgumentError
      ("A given feature can only belong to one group." ++
        (f0.value ++ " already belongs to an existing group.")),
    by simp only [add_feature_group, hf0]⟩

theorem add_ok_of_no_collision (rf : RestrictedFeatures) (group : FeatureGroup)
    (h : ∀ feat ∈ group.features, feat ∉ rf.features_restricted) :
    add_feature_group rf group =
      .ok { feature_groups := rf.feature_groups ++ [group],
            features_restricted :=
              rf.features_restricted ∪ group.features.toFinset } := by
  have hnone : group.features.find?
      (fun feat => decide (feat ∈ rf.features_restricted)) = none :=
    List.find?_eq_none.mpr (fun x hx => by simpa using h x hx)
  simp only [add_feature_group, hnone]

theorem add_ok_characterization (rf : RestrictedFeatures) (group : FeatureGroup)
    (rf2 : RestrictedFeatures)
    (hok : add_feature_group rf group = .ok rf2) :
    rf2 = { feature_groups := rf.feature_groups ++ [group],
            features_restricted :=
              rf.features_restricted ∪ group.features.toFinset } := by
  rw [add_feature_group] at hok
  cases hf : group.features.find?
      (fun feat => decide (feat ∈ rf.features_restricted)) with
  | some f0 => rw [hf] at hok; exact absurd hok (by simp)
  | none =>
      rw [hf] at hok
      injection hok with h2
      exact h2.symm

theorem groupsUnion_concat (groups : List FeatureGroup) (g : FeatureGroup) :
    groupsUnion (groups ++ [g]) = groupsUnion groups ∪ g.features.toFinset := by
  induction groups with
  | nil =>
      simp only [groupsUnion, List.nil_append, List.foldr_cons, List.foldr_nil,
        Finset.union_empty, Finset.empty_union]
  | cons a l ih =>
      simp only [groupsUnion, List.cons_append, List.foldr_cons] at ih ⊢
      rw [ih, Finset.union_assoc]

theorem add_preserves_invariant (rf : RestrictedFeatures) (group : FeatureGroup)
    (hinv : Invariant rf) (rf2 : RestrictedFeatures)
    (hok : add_feature_group rf group = .ok rf2) : Invariant rf2 := by
  rw [add_ok_characterization rf group rf2 hok]
  unfold Invariant at hinv ⊢
  rw [groupsUnion_concat, ← hinv]

theorem foldl_add_invariant (groups : List FeatureGroup)
    (rf : RestrictedFeatures) (hinv : Invariant rf) (rf2 : RestrictedFeatures)
    (h : groups.foldlM add_feature_group rf = .ok rf2) : Invariant rf2 := by
  induction groups generalizing rf with
  | nil =>
      simp only [List.foldlM_nil] at h
      injection h with h2
      rw [← h2]
      exact hinv
  | cons g gs ih =>
      rw [List.foldlM_cons] at h
      cases hadd : add_feature_group rf g with
      | error e =>
          rw [hadd] at h
          exact Except.noConfusion
            (h : (Except.error e : Except PyError RestrictedFeatures) = .ok rf2)
      | ok r =>
          rw [hadd] at h
          exact ih r (add_preserves_invariant rf g hinv r hadd)
            (h : gs.foldlM add_feature_group r = .ok rf2)

/-- C9: `add_feature_group` fails with `InvalidArgumentError` when some
feature of the candidate group already belongs to an existing group, and
otherwise appends the group and marks all its features as claimed in the
restricted set; `create_feature_group` builds the group and delegates to
`add_feature_group`. -/
theorem add_feature_group_c9 (rf : RestrictedFeatures) (group : FeatureGroup) :
    ((∃ feat ∈ group.features, feat ∈ rf.features_restricted) →
        ∃ msg, add_feature_group rf group =
          .error (.invalidArgumentError msg)) ∧
    ((∀ feat ∈ group.features, feat ∉ rf.features_restricted) →
        add_feature_group rf group =
          .ok { feature_groups := rf.feature_groups ++ [group],
                features_restricted :=
                  rf.features_restricted ∪ group.features.toFinset }) ∧
    (∀ rf2, add_feature_group rf group = .ok rf2 →
        ∀ feat ∈ group.features, feat ∈ rf2.features_restricted) ∧
    (∀ key value features, create_feature_group rf key value features =
        add_feature_group rf
          { key := key, value := value, features := features }) := by
  refine ⟨?_, ?_, ?_, ?_⟩
  · intro h
    rcases h with ⟨feat, hmem, hres⟩
    obtain ⟨e, he⟩ := add_error_of_find rf group feat hmem hres
    cases e with
    | invalidArgumentError msg => exact ⟨msg, he⟩
  · exact add_ok_of_no_collision rf group
  · intro rf2 hok feat hfeat
    rw [add_ok_characterization rf group rf2 hok]
    exact Finset.mem_union_right _ (List.mem_toFinset.mpr hfeat)
  · intro key value features
    rfl

/-- C9 witness: adding a trace group to a state that already restricts
tracing fails with `InvalidArgumentError`; adding it to a state that does
not yet restrict tracing succeeds, appends the group, and claims the trace
feature. -/
theorem add_feature_group_c9_witness :
    (∃ msg, add_feature_group
        { feature_groups :=
            [{ key := "trace-key", value := "trace-value",
               features := [Feature.trace] }],
          features_restricted := {Feature.trace} }
        { key := "k2", value := "v2", features := [Feature.trace] } =
      .error (.invalidArgumentError msg)) ∧
    add_feature_group
        { feature_groups := [], features_restricted := ∅ }
        { key := "k2", value := "v2", features := [Feature.trace] } =
      .ok { feature_groups :=
              [] ++ [{ key := "k2", value := "v2",
                       features := [Feature.trace] }],
            features_restricted :=
              ∅ ∪ ([Feature.trace].toFinset) } ∧
    create_feature_group
        { feature_groups := [], features_restricted := ∅ }
        "k2" "v2" [Feature.trace] =
      add_feature_group
        { feature_groups := [], features_restricted := ∅ }
        { key := "k2", value := "v2", features := [Feature.trace] } :=
  ⟨(add_feature_group_c9
      { feature_groups :=
          [{ key := "trace-key", value := "trace-value",
             features := [Feature.trace] }],
        features_restricted := {Feature.trace} }
      { key := "k2", value := "v2", features := [Feature.trace] }).1
    ⟨Feature.trace, by decide, by decide⟩,
   (add_feature_group_c9
      { feature_groups := [], features_restricted := ∅ }
      { key := "k2", value := "v2", features := [Feature.trace] }).2.1
    (by decide),
   (add_feature_group_c9
      { feature_groups := [], features_restricted := ∅ }
      { key := "k2", value := "v2", features := [Feature.trace] }).2.2.2
    "k2" "v2" [Feature.trace]⟩

/-- C10: when `add_feature_group` raises the collision error, the caller
keeps the original `RestrictedFeatures` value (no field is modified), and
an error can only arise because a feature of the candidate group was
already claimed, checked against `features_restricted` before any mutation;
consequently `features_restricted` always equals the union of the feature
sets of the stored groups: the invariant holds for objects built by
`__init__` and is preserved by every successful `add_feature_group`. -/
theorem restricted_invariant_c10 (rf : RestrictedFeatures)
    (group : FeatureGroup) (hinv : Invariant rf) :
    (∀ e, add_feature_group rf group = .error e →
        (∃ feat ∈ group.features, feat ∈ rf.features_restricted) ∧
        Invariant rf) ∧
    (∀ rf2, add_feature_group rf group = .ok rf2 → Invariant rf2) ∧
    (∀ groups rf0, RestrictedFeatures.init groups = .ok rf0 →
        Invariant rf0) := by
  refine ⟨?_, ?_, ?_⟩
  · intro e he
    refine ⟨?_, hinv⟩
    by_contra hno
    push_neg at hno
    rw [add_ok_of_no_collision rf group hno] at he
    exact absurd he (by simp)
  · exact add_preserves_invariant rf group hinv
  · intro groups rf0 h
    exact foldl_add_invariant groups
      { feature_groups := [], features_restricted := ∅ } rfl rf0 h

/-- C10 witness: on a state holding one health group (which satisfies the
invariant), a colliding add fails while the state keeps the invariant, a
non-colliding add preserves it. -/
theorem restricted_invariant_c10_witness :
    ((∃ feat ∈ [Feature.health],
        feat ∈ ({Feature.health} : Finset Feature)) ∧
      Invariant
        { feature_groups := [{ key := "health-key", value := "health-value",
                               features := [Feature.health] }],
          features_restricted := {Feature.health} }) ∧
    Invariant
      { feature_groups := [{ key := "health-key", value := "health-value",
                             features := [Feature.health] }] ++
            [{ key := "infer-key", value := "infer-value",
               features := [Feature.inference] }],
        features_restricted :=
          {Feature.health} ∪ ([Feature.inference].toFinset) } :=
  ⟨(restricted_invariant_c10
      { feature_groups := [{ key := "health-key", value := "health-value",
                             features := [Feature.health] }],
        features_restricted := {Feature.health} }
      { key := "health-key2", value := "v", features := [Feature.health] }
      (by decide)).1
    (.invalidArgumentError
      ("A given feature can only belong to one group." ++
        (Feature.value .health ++ " already belongs to an existing group.")))
    rfl,
   (restricted_invariant_c10
      { feature_groups := [{ key := "health-key", value := "health-value",
                             features := [Feature.health] }],
        features_restricted := {Feature.health} }
      { key := "infer-key", value := "infer-value",
        features := [Feature.inference] }
      (by decide)).2.1
    { feature_groups := [{ key := "health-key", value := "health-value",
                           features := [Feature.health] }] ++
          [{ key := "infer-key", value := "infer-value",
             features := [Feature.inference] }],
      features_restricted :=
        {Feature.health} ∪ ([Feature.inference].toFinset) }
    rfl⟩

end RestrictedFeaturesModel
